import Mathlib

/-!
Shallow embedding of the science-news aggregation pipeline implemented in
`CB_science_tracker.py` (class `DailyBiotechTrackerHTML`), together with
theorems settling the specification's claims about it.

Modelling conventions:
- Python strings are Lean `String`s; character-level operations work on
  `List Char` (one `Char` per Unicode scalar, matching Python's `len` and
  slicing on `str`).
- `datetime` instants are modelled as integer seconds; calendar dates as
  integer day numbers (days since 1970-01-01), so that Python's
  `(a - b).days` on midnight-anchored dates is exactly integer subtraction
  of day numbers.  `datetime.now()` is passed in explicitly as a reference
  instant/day.
- Network calls and other raising code are modelled with `Except Unit`:
  an `Except.error ()` input stands for a fetch/parse that raised.
- `str.lower()` is modelled ASCII-only (`Char.toLower`), which agrees with
  Python on all keyword tables and all inputs used in the theorems below.
-/

/-! ### Python string primitives -/

/-- Whitespace characters recognised by Python's `\s` and `str.strip()`
(ASCII fragment). -/
def isPySpace (c : Char) : Bool :=
  c = ' ' || c = '\t' || c = '\n' || c = '\r' || c = '\x0b' || c = '\x0c'

/-- Python `needle in hay` substring test, on character lists. -/
def containsSubL (needle : List Char) : List Char → Bool
  | [] => needle.isEmpty
  | c :: rest => needle.isPrefixOf (c :: rest) || containsSubL needle rest

/-- Python `needle in hay` substring test on strings. -/
def containsSub (needle hay : String) : Bool :=
  containsSubL needle.toList hay.toList

/-- Python `str.lower()` (ASCII model). -/
def pyLower (s : String) : String :=
  ⟨s.toList.map Char.toLower⟩

/-- Lexicographic `<` on character lists, by code point. -/
def lexLtL : List Char → List Char → Bool
  | [], [] => false
  | [], _ :: _ => true
  | _ :: _, [] => false
  | a :: as, b :: bs => if a < b then true else if b < a then false else lexLtL as bs

/-- Python `a < b` on strings: lexicographic comparison by code point. -/
def pyStrLt (a b : String) : Bool := lexLtL a.toList b.toList

/-- Python `str.strip()` on a character list (ASCII whitespace model). -/
def pyStripL (l : List Char) : List Char :=
  ((l.dropWhile isPySpace).reverse.dropWhile isPySpace).reverse

/-- Python `str.strip()` on strings. -/
def pyStrip (s : String) : String :=
  ⟨pyStripL s.toList⟩

/-- Does `int(s)` succeed in Python (ASCII model: optional surrounding
whitespace, optional sign, then one or more digits)? -/
def pyIntOk (s : String) : Bool :=
  let t := pyStripL s.toList
  let t := match t with
    | '+' :: r => r
    | '-' :: r => r
    | r => r
  !t.isEmpty && t.all Char.isDigit

/-- Python `str.zfill(w)`: left-pad with `'0'` to width `w`, keeping a
leading sign in front of the padding. -/
def zfill (w : Nat) (s : String) : String :=
  let l := s.toList
  if l.length < w then
    match l with
    | c :: rest =>
      if c = '+' ∨ c = '-' then ⟨c :: (List.replicate (w - l.length) '0' ++ rest)⟩
      else ⟨List.replicate (w - l.length) '0' ++ l⟩
    | [] => ⟨List.replicate w '0'⟩
  else s

/-- Decimal value of a digit list (as produced for already-validated
digit runs). -/
def digitsVal (l : List Char) : Nat :=
  l.foldl (fun n c => n * 10 + (c.toNat - 48)) 0

/-- Split a character list at `'-'` separators (used for `%Y-%m-%d`
parsing). -/
def splitDash : List Char → List (List Char)
  | [] => [[]]
  | c :: rest =>
    if c = '-' then [] :: splitDash rest
    else
      match splitDash rest with
      | [] => [[c]]
      | g :: gs => (c :: g) :: gs

/-! ### Calendar arithmetic

Day numbers are days since 1970-01-01 (negative before), so that
subtracting two day numbers is Python's `(a - b).days` for
midnight-anchored datetimes.  The conversions are the standard civil
calendar algorithms on the proleptic Gregorian calendar, the same
calendar Python's `datetime` uses. -/

/-- Gregorian leap-year test. -/
def isLeapYear (y : Int) : Bool :=
  (y % 4 == 0 && y % 100 != 0) || y % 400 == 0

/-- Days in a month of the proleptic Gregorian calendar. -/
def daysInMonth (y m : Int) : Int :=
  if m = 2 then (if isLeapYear y then 29 else 28)
  else if m = 4 ∨ m = 6 ∨ m = 9 ∨ m = 11 then 30
  else 31

/-- Day number (days since 1970-01-01) of a civil date. -/
def daysFromCivil (y0 m d : Int) : Int :=
  let y := if m ≤ 2 then y0 - 1 else y0
  let era := Int.fdiv y 400
  let yoe := y - era * 400
  let mp := if m > 2 then m - 3 else m + 9
  let doy := Int.fdiv (153 * mp + 2) 5 + d - 1
  let doe := yoe * 365 + Int.fdiv yoe 4 - Int.fdiv yoe 100 + doy
  era * 146097 + doe - 719468

/-- Civil date `(year, month, day)` of a day number. -/
def civilFromDays (z0 : Int) : Int × Int × Int :=
  let z := z0 + 719468
  let era := Int.fdiv z 146097
  let doe := z - era * 146097
  let yoe := Int.fdiv (doe - Int.fdiv doe 1460 + Int.fdiv doe 36524 - Int.fdiv doe 146096) 365
  let y := yoe + era * 400
  let doy := doe - (365 * yoe + Int.fdiv yoe 4 - Int.fdiv yoe 100)
  let mp := Int.fdiv (5 * doy + 2) 153
  let d := doy - Int.fdiv (153 * mp + 2) 5 + 1
  let m := if mp < 10 then mp + 3 else mp - 9
  (if m ≤ 2 then y + 1 else y, m, d)

/-- Left-pad the decimal representation of `n` with zeros to width `w`
(`strftime` zero padding). -/
def padNum (w : Nat) (n : Int) : String :=
  let s := toString n
  if s.toList.length < w then ⟨List.replicate (w - s.toList.length) '0' ++ s.toList⟩ else s

/-- Python `strftime('%Y-%m-%d')` of the date with the given day number. -/
def formatDate (day : Int) : String :=
  let c := civilFromDays day
  padNum 4 c.1 ++ "-" ++ padNum 2 c.2.1 ++ "-" ++ padNum 2 c.2.2

/-- Python `datetime.strptime(s, '%Y-%m-%d')`, returning the day number of
the parsed date, or `none` when `strptime` raises `ValueError`: the year is
exactly 4 digits, month and day are 1-2 digits, the month is 1..12, the day
is valid for that month, and nothing else is in the string. -/
def parseYMD (s : String) : Option Int :=
  match splitDash s.toList with
  | [ys, ms, ds] =>
    if ys.length = 4 ∧ ys.all Char.isDigit ∧
        (ms.length = 1 ∨ ms.length = 2) ∧ ms.all Char.isDigit ∧
        (ds.length = 1 ∨ ds.length = 2) ∧ ds.all Char.isDigit then
      let y : Int := digitsVal ys
      let m : Int := digitsVal ms
      let d : Int := digitsVal ds
      if 1 ≤ y ∧ 1 ≤ m ∧ m ≤ 12 ∧ 1 ≤ d ∧ d ≤ daysInMonth y m then
        some (daysFromCivil y m d)
      else none
    else none
  | _ => none

/-! ### HTML cleaning (`clean_html`, source lines 161-169) -/

/-- Tag-stripping state machine.  `Modelled from the spec:` the source
delegates tag removal to the external library call
`BeautifulSoup(text, 'html.parser').get_text()`, whose code is not part of
this repository; the spec says only that "HTML markup [is] stripped".  The
model drops every region delimited by `'<'` and the next `'>'` (and an
unterminated region to the end), keeping all other characters.  The `Bool`
is the inside-a-tag state. -/
def stripTagsAux : Bool → List Char → List Char
  | _, [] => []
  | true, c :: rest => if c = '>' then stripTagsAux false rest else stripTagsAux true rest
  | false, c :: rest => if c = '<' then stripTagsAux true rest else c :: stripTagsAux false rest

/-- `BeautifulSoup(text, 'html.parser').get_text()` model: see
`stripTagsAux`. -/
def stripTags (l : List Char) : List Char := stripTagsAux false l

/-- `re.sub(r'\s+', ' ', text)`: collapse every run of whitespace to a
single `' '`.  The `Bool` records whether the previous character was
whitespace (i.e. whether we are inside a run that already emitted its
space). -/
def collapseWsAux : Bool → List Char → List Char
  | _, [] => []
  | prevSpace, c :: rest =>
    if isPySpace c then
      if prevSpace then collapseWsAux true rest
      else ' ' :: collapseWsAux true rest
    else c :: collapseWsAux false rest

/-- `re.sub(r'\s+', ' ', text)` on a character list. -/
def collapseWs (l : List Char) : List Char := collapseWsAux false l

/-- The final step of `clean_html` (lines 167-169): truncate to
`text[:297] + '...'` when longer than 300 characters. -/
def cleanTruncate (t : List Char) : String :=
  if t.length > 300 then ⟨t.take 297 ++ ['.', '.', '.']⟩ else ⟨t⟩

/-- `clean_html` (source lines 161-169): empty input maps to `""`;
otherwise strip HTML markup, collapse whitespace runs, strip surrounding
whitespace, and truncate when longer than 300 characters. -/
def clean_html (text : String) : String :=
  if text = "" then ""
  else cleanTruncate (pyStripL (collapseWs (stripTags text.toList)))

/-- Does the text contain an HTML-tag-shaped region, i.e. a `'<'` with a
later `'>'`?  (Decidable form used to state the "no HTML tags" claim.) -/
def containsHtmlTag : List Char → Bool
  | [] => false
  | c :: rest =>
    if c = '<' then rest.contains '>' || containsHtmlTag rest
    else containsHtmlTag rest

/-! ### PubMed publication-date parsing (`_parse_pub_date`, lines 322-343) -/

/-- The `<PubDate>` element: optional `<Year>`, `<Month>`, `<Day>`
children with their text. -/
structure PubDateXml where
  year : Option String
  month : Option String
  day : Option String
deriving DecidableEq, Repr

/-- Lowercased 3-letter month abbreviations recognised by
`datetime.strptime(_, '%b')` in the C locale (matched
case-insensitively). -/
def monthAbbrevs : List (List Char) :=
  [['j','a','n'], ['f','e','b'], ['m','a','r'], ['a','p','r'],
   ['m','a','y'], ['j','u','n'], ['j','u','l'], ['a','u','g'],
   ['s','e','p'], ['o','c','t'], ['n','o','v'], ['d','e','c']]

/-- `datetime.strptime(month_text[:3], '%b').month`: the month number of a
3-letter abbreviation (case-insensitive, first three characters), or
`none` when `strptime` raises. -/
def monthFromAbbr (s : String) : Option Nat :=
  ((monthAbbrevs.indexOf? ((s.toList.take 3).map Char.toLower))).map (· + 1)

/-- `_parse_pub_date` (source lines 322-343): absent `<PubDate>` yields the
literal `"Date not available"`; otherwise year defaults to `"2023"`, a
numeric month is zero-filled, an abbreviated month is converted to its
zero-filled number, an unparseable or missing month becomes `"01"`, and a
missing day becomes `"01"`. -/
def _parse_pub_date (pd : Option PubDateXml) : String :=
  match pd with
  | some p =>
    let year_str := p.year.getD "2023"
    let month_str :=
      match p.month with
      | some mt =>
        if pyIntOk mt then zfill 2 mt
        else
          match monthFromAbbr mt with
          | some m => zfill 2 (toString m)
          | none => "01"
      | none => "01"
    let day_str :=
      match p.day with
      | some dt => zfill 2 dt
      | none => "01"
    year_str ++ "-" ++ month_str ++ "-" ++ day_str
  | none => "Date not available"

/-! ### Data model -/

/-- A parsed feed entry as consumed by `get_news_from_rss` (the
`feedparser` fields it reads).  Timestamps are instants in integer
seconds; `published`/`updated` are `none` when the corresponding
`*_parsed` attribute is absent. -/
structure RawEntry where
  title : String
  link : String
  published : Option Int
  updated : Option Int
  summary : Option String
deriving DecidableEq, Repr

/-- A parsed feed: its entry list and the feed-level title. -/
structure RawFeed where
  entries : List RawEntry
  feedTitle : Option String
deriving DecidableEq, Repr

/-- A news item dict as built by `get_news_from_rss` (lines 148-154). -/
structure NewsItem where
  title : String
  link : String
  date : String
  summary : String
  source : String
deriving DecidableEq, Repr

/-- A paper dict as built by `_parse_pubmed_article` / `search_biorxiv`.
`abstract` and `journal` are `none` when the dict lacks the key (bioRxiv
papers have no `journal` key); `calculate_relevance_score` reads them with
`.get` defaults. -/
structure Paper where
  title : String
  authors : String
  abstract : Option String
  journal : Option String
  date : String
  source : String
  url : Option String
deriving DecidableEq, Repr

/-- A `<PubmedArticle>` as read by `_parse_pubmed_article`: presence of the
`<Article>` child, the element texts it looks up, the author name pairs,
the `<PubDate>` child, and the `(IdType, text)` list of `<ArticleId>`s. -/
structure ArticleXml where
  hasArticle : Bool
  title : Option String
  journalTitle : Option String
  abstractTexts : List (Option String × String)
  authors : List (Option String × Option String)
  pubDate : Option PubDateXml
  ids : List (String × String)
deriving DecidableEq, Repr

/-- A bioRxiv collection record as read by `search_biorxiv` (`title`,
`authors`, `date`, `doi` are accessed unconditionally; `abstract` through
`.get`). -/
structure BioRaw where
  title : String
  authors : String
  abstract : Option String
  date : String
  doi : String
deriving DecidableEq, Repr

/-! ### Configuration tables (source lines 47-131)

Python dicts with fixed insertion order are modelled as association lists
in the source's insertion order. -/

/-- `self.keywords`: category name to keyword-weight table. -/
def keywords : List (String × List (String × Int)) :=
  [("Biotech & Microbiome Focus",
    [("microbiome business", 10), ("microbiome company", 10), ("microbiome startup", 10),
     ("microbiome investment", 9), ("microbiome clinical trial", 10), ("microbiome stock", 9),
     ("microbiome therapeutics", 9), ("antimicrobial resistance", 8), ("live biotherapeutic", 8),
     ("fecal microbiota transplant", 7), ("gut-brain axis", 7), ("skin microbiome product", 9),
     ("microbiome diagnostic", 8)]),
   ("Synthetic & Molecular Biology",
    [("synthetic biology", 10), ("molecular biology", 9), ("microbiology technique", 8),
     ("bacteria engineering", 10), ("plasmid design", 9), ("gene expression", 8),
     ("CRISPR", 9), ("bacterial defense system", 9), ("restriction enzyme", 8),
     ("bacteria measurement", 7), ("microscopy bacteria", 7), ("single-cell sequencing", 8),
     ("gene editing bacteria", 9), ("biosensor bacteria", 8), ("metabolic engineering", 8)]),
   ("Bacteriophage Research",
    [("bacteriophage", 10), ("phage therapy", 10), ("phage engineering", 10),
     ("phage display", 8), ("phage cocktail", 9), ("phage resistance", 9),
     ("phage biology", 8), ("phage genome", 8), ("temperate phage", 7),
     ("virulent phage", 7), ("bacteriophage isolation", 8), ("phage-host interaction", 9)]),
   ("Skin Microbiome & Disease",
    [("skin microbiome", 10), ("skin bacteria", 9), ("Cutibacterium acnes", 10),
     ("Propionibacterium acnes", 10), ("skin microbiome atopic dermatitis", 9),
     ("skin microbiome psoriasis", 9), ("skin microbiome acne", 10),
     ("skin microbiome eczema", 9), ("skin microbiome rosacea", 9),
     ("skin microbiome wound", 8), ("skin microbiome aging", 8),
     ("skin microbiome cancer", 8), ("skin microbiome cosmetic", 8)])]

/-- `self.journal_scores`: journal name to venue bonus. -/
def journal_scores : List (String × Int) :=
  [("Nature", 10), ("Science", 10), ("Cell", 10), ("Nature Biotechnology", 10),
   ("Nature Microbiology", 10), ("Nature Medicine", 9), ("Nature Communications", 8),
   ("Science Translational Medicine", 9),
   ("Proceedings of the National Academy of Sciences", 8), ("Cell Host & Microbe", 9),
   ("Microbiome", 9), ("ISME Journal", 8), ("Molecular Systems Biology", 8),
   ("Trends in Biotechnology", 8), ("Trends in Microbiology", 8), ("PLoS Biology", 7),
   ("mBio", 7), ("Nucleic Acids Research", 7), ("The Journal of Biological Chemistry", 6),
   ("Applied and Environmental Microbiology", 6)]

/-- Python `dict.get(k, d)` on an association list. -/
def pyDictGet (tbl : List (String × Int)) (k : String) (d : Int) : Int :=
  match tbl.find? (fun e => e.1 == k) with
  | some e => e.2
  | none => d

/-- `self.keywords.get(category, {})`. -/
def keywordsFor (cat : String) : List (String × Int) :=
  match keywords.find? (fun e => e.1 == cat) with
  | some e => e.2
  | none => []

/-! ### Stable sorting

`list.sort(key=k, reverse=True)` in Python is a stable sort: it orders by
descending key and elements with equal keys keep their input order.  That
behaviour is modelled with `List.insertionSort` and the total relation
"my key is at least yours", under which `orderedInsert` places an element
exactly before the first earlier-inserted element of smaller-or-equal key
hence after every element of larger key and before every equal-key element
that followed it in the input. -/

/-- `l.sort(key=key, reverse=True)` for an integer key. -/
def pySortDescInt (key : α → Int) (l : List α) : List α :=
  List.insertionSort (fun a b => key b ≤ key a) l

/-- `l.sort(key=key, reverse=True)` for a string key (Python compares
strings lexicographically by code point, which is `pyStrLt`). -/
def pySortDescStr (key : α → String) (l : List α) : List α :=
  List.insertionSort (fun a b => pyStrLt (key a) (key b) = false) l

/-! ### Feed adapter (`get_news_from_rss`, lines 136-159; `get_all_news`,
lines 171-181) -/

/-- Resolution of an entry's publication instant (lines 141-146):
`published_parsed` if present, else `updated_parsed`, else "yesterday". -/
def entryMoment (now : Int) (e : RawEntry) : Int :=
  match e.published with
  | some t => t
  | none =>
    match e.updated with
    | some t => t
    | none => now - 86400

/-- `(datetime.now() - pub_date).days`: floor of the difference in days. -/
def daysBetween (now t : Int) : Int := Int.fdiv (now - t) 86400

/-- The recency test of line 147. -/
def entryRecent (now days_back : Int) (e : RawEntry) : Bool :=
  daysBetween now (entryMoment now e) ≤ days_back

/-- The news dict built at lines 148-154. -/
def mkNewsItem (now : Int) (feedTitle : Option String) (e : RawEntry) : NewsItem :=
  { title := e.title
    link := e.link
    date := formatDate (Int.fdiv (entryMoment now e) 86400)
    summary := clean_html (e.summary.getD "")
    source := feedTitle.getD "Unknown Source" }

/-- `get_news_from_rss` (lines 136-159).  The whole body runs under
`try/except`, so a raising fetch (`Except.error`) yields `[]`.  Otherwise:
consider only the first 15 entries, keep the recent ones, sort by date
string descending, and return the first `max_items`. -/
def get_news_from_rss (now : Int) (fetched : Except Unit RawFeed)
    (days_back : Int) (max_items : Nat) : List NewsItem :=
  match fetched with
  | .error _ => []
  | .ok feed =>
    let recent := ((feed.entries.take 15).filter (entryRecent now days_back)).map
      (mkNewsItem now feed.feedTitle)
    (pySortDescStr (fun x : NewsItem => x.date) recent).take max_items

/-- `get_all_news` (lines 171-181): fetch every source of the category
(each fetch independently wrapped in `try/except`), concatenate, and sort
by date descending.  `max_items` is left at its default 5 by the call at
line 176. -/
def get_all_news (now days_back : Int) (feeds : List (Except Unit RawFeed)) : List NewsItem :=
  pySortDescStr (fun x : NewsItem => x.date)
    ((feeds.map (fun f => get_news_from_rss now f days_back 5)).flatten)

/-! ### Literature adapter (`search_pubmed`, lines 183-213;
`_parse_pubmed_article`, lines 271-320) -/

/-- `', '.join(authors[:3]) + (' et al.' if len(authors) > 3 else '')`
(line 315). -/
def formatAuthors (authors : List String) : String :=
  String.intercalate ", " (authors.take 3) ++ (if authors.length > 3 then " et al." else "")

/-- `_parse_pubmed_article` (lines 271-320): `none` when the record has no
`<Article>` child; otherwise build the paper dict, with sentinel title and
journal, labelled abstract segments concatenated, and a DOI-preferred URL.
The `source` key is absent at this point (set by the caller); it is
modelled as `""` here and overwritten in `processPubmedArticles`. -/
def _parse_pubmed_article (art : ArticleXml) : Option Paper :=
  if art.hasArticle = false then none
  else
    let authors := art.authors.filterMap (fun a =>
      match a.1, a.2 with
      | some ln, some fn => some (ln ++ " " ++ fn)
      | _, _ => none)
    let date_str := _parse_pub_date art.pubDate
    let doi := (art.ids.find? (fun e => e.1 == "doi")).map (fun e => e.2)
    let pmid := (art.ids.find? (fun e => e.1 == "pubmed")).map (fun e => e.2)
    let abstract0 := art.abstractTexts.foldl (fun acc seg =>
      match seg.1 with
      | some lab => acc ++ lab ++ ": " ++ seg.2 ++ " "
      | none => acc ++ seg.2 ++ " ") ""
    let abstract1 := if abstract0 = "" then "No abstract available" else abstract0
    let url := match doi with
      | some d => some ("https://doi.org/" ++ d)
      | none =>
        match pmid with
        | some p => some ("https://pubmed.ncbi.nlm.nih.gov/" ++ p ++ "/")
        | none => none
    some { title := art.title.getD "No title available"
           authors := formatAuthors authors
           abstract := some (pyStrip abstract1)
           journal := some (art.journalTitle.getD "Journal not specified")
           date := date_str
           source := ""
           url := url }

/-- The per-article loop of `search_pubmed` (lines 202-210): each article
is processed under its own `try/except ... continue`, so a raising parse
(`Except.error`) is skipped; a `None` parse result is skipped; a parsed
paper gets `source = 'PubMed'` and is appended. -/
def processPubmedArticles (arts : List (Except Unit ArticleXml)) : List Paper :=
  arts.foldl (fun acc a =>
    match a with
    | .error _ => acc
    | .ok art =>
      match _parse_pubmed_article art with
      | some p => acc ++ [{ p with source := "PubMed" }]
      | none => acc) []

/-- `search_pubmed` (lines 183-213): the search and fetch phases run under
an outer `try/except`; a failure before the article loop leaves `papers`
empty, so the call returns `[]`. -/
def search_pubmed (fetched : Except Unit (List (Except Unit ArticleXml))) : List Paper :=
  match fetched with
  | .error _ => []
  | .ok arts => processPubmedArticles arts

/-! ### Preprint adapter (`search_biorxiv`, lines 215-247) -/

/-- The per-record body of `search_biorxiv`'s inner loop (lines 226-241),
run under `try/except ... continue`: an unparseable `date` is skipped
(`strptime` raises), an out-of-window date is dropped, and a record
survives only if some category keyword occurs case-insensitively in its
title or abstract.  A surviving record becomes a paper dict with no
`journal` key and the raw `authors` string. -/
def biorxiv_keep (todayDay days_back : Int) (kws : List String) (r : BioRaw) : Option Paper :=
  match parseYMD r.date with
  | none => none
  | some d =>
    if todayDay - d ≤ days_back then
      let titleL := pyLower r.title
      let absL := pyLower (r.abstract.getD "")
      if kws.any (fun kw => containsSub (pyLower kw) titleL || containsSub (pyLower kw) absL) then
        some { title := r.title
               authors := r.authors
               abstract := some (r.abstract.getD "No abstract available")
               journal := none
               date := r.date
               source := "bioRxiv"
               url := some ("https://doi.org/" ++ r.doi) }
      else none
    else none

/-- `search_biorxiv` (lines 215-247): iterate the fixed collections; a
collection whose fetch raises (`Except.error`) is logged and skipped
(`continue`), the records of a fetched collection are filtered by
`biorxiv_keep` and appended in order. -/
def search_biorxiv (todayDay days_back : Int) (kws : List String)
    (colls : List (Except Unit (List BioRaw))) : List Paper :=
  colls.foldl (fun acc c =>
    match c with
    | .error _ => acc
    | .ok rs => acc ++ rs.filterMap (biorxiv_keep todayDay days_back kws)) []

/-! ### Relevance scorer (`calculate_relevance_score`, lines 249-269) -/

/-- The keyword loop of lines 250-257: fold over the category's
keyword-weight table; a keyword occurring (case-insensitively) in
`title + " " + abstract` adds its weight, plus 3 more if it also occurs in
the title. -/
def keywordScore (tbl : List (String × Int)) (title abstract : String) : Int :=
  let text_to_check := pyLower (title ++ " " ++ abstract)
  tbl.foldl (fun score kw =>
    if containsSub (pyLower kw.1) text_to_check then
      let score := score + kw.2
      if containsSub (pyLower kw.1) (pyLower title) then score + 3 else score
    else score) 0

/-- The per-keyword term of `keywordScore`, named so the contribution of a
single keyword can be stated: weight plus 3 when also in the title, weight
when only in the combined text, 0 when absent. -/
def kwContribution (title abstract : String) (kw : String × Int) : Int :=
  if containsSub (pyLower kw.1) (pyLower (title ++ " " ++ abstract)) then
    kw.2 + (if containsSub (pyLower kw.1) (pyLower title) then 3 else 0)
  else 0

/-- The venue bonus of lines 258-259:
`self.journal_scores.get(paper.get('journal', '').strip(), 0)`. -/
def venueBonus (js : List (String × Int)) (journal : Option String) : Int :=
  pyDictGet js (pyStrip (journal.getD "")) 0

/-- The recency bonus of lines 260-268: parse the paper's date with
`strptime('%Y-%m-%d')` under `try/except`; when it parses, +5 for age at
most 1 day, +3 for age at most 3 days, else 0; when it raises, 0. -/
def recencyBonus (todayDay : Int) (dateStr : String) : Int :=
  match parseYMD dateStr with
  | some d =>
    let days_old := todayDay - d
    if days_old ≤ 1 then 5
    else if days_old ≤ 3 then 3
    else 0
  | none => 0

/-- `calculate_relevance_score` (lines 249-269), as a pure function of the
category's keyword table, the journal table, the reference day
(`self.today`) and the paper. -/
def calculate_relevance_score (kwTbl js : List (String × Int)) (todayDay : Int)
    (p : Paper) : Int :=
  keywordScore kwTbl p.title (p.abstract.getD "")
    + venueBonus js p.journal
    + recencyBonus todayDay p.date

/-! ### Aggregator/ranker (`search_all_pubmed_categories`, lines 345-359) -/

/-- `search_all_pubmed_categories` (lines 345-359): for every category in
order, fetch PubMed and bioRxiv results (the query construction and the
HTTP transport are abstracted into the two response functions),
concatenate literature results before preprint results, attach each
paper's relevance score against the category, and sort by score descending
(stably).  The whole scored, sorted list is stored per category — nothing
is truncated here. -/
def search_all_pubmed_categories (todayDay days_back : Int)
    (pubmedResp : String → Except Unit (List (Except Unit ArticleXml)))
    (bioResp : String → List (Except Unit (List BioRaw))) :
    List (String × List (Paper × Int)) :=
  keywords.map (fun cat =>
    let papers := search_pubmed (pubmedResp cat.1)
    let bps := search_biorxiv todayDay days_back (cat.2.map Prod.fst) (bioResp cat.1)
    let all_papers := papers ++ bps
    let scored := all_papers.map (fun p =>
      (p, calculate_relevance_score cat.2 journal_scores todayDay p))
    (cat.1, pySortDescInt (fun x => x.2) scored))

/-! ### Extraction views of the adapters

Named forms of the per-element processing, used to state that the
adapters' loops keep every qualifying item (no truncation, and failures
skip only the failing element). -/

/-- What one fetched PubMed article contributes to `search_pubmed`'s
result: nothing when its processing raised or parsed to `None`, the
source-tagged paper otherwise. -/
def pubmedExtract (a : Except Unit ArticleXml) : Option Paper :=
  match a with
  | .error _ => none
  | .ok art => (_parse_pubmed_article art).map (fun p => { p with source := "PubMed" })

/-- What one bioRxiv collection fetch contributes to `search_biorxiv`'s
result: nothing when the fetch raised, its qualifying records otherwise. -/
def biorxivCollExtract (todayDay days_back : Int) (kws : List String)
    (c : Except Unit (List BioRaw)) : List Paper :=
  match c with
  | .error _ => []
  | .ok rs => rs.filterMap (biorxiv_keep todayDay days_back kws)

/-! ### Concrete test fixtures used by the claim theorems -/

/-- A fetched feed with six entries all published at the reference instant
(so all six qualify for any nonnegative lookback window). -/
def exFeed6 : RawFeed :=
  { entries :=
      [{ title := "e1", link := "u1", published := some 0, updated := none, summary := none },
       { title := "e2", link := "u2", published := some 0, updated := none, summary := none },
       { title := "e3", link := "u3", published := some 0, updated := none, summary := none },
       { title := "e4", link := "u4", published := some 0, updated := none, summary := none },
       { title := "e5", link := "u5", published := some 0, updated := none, summary := none },
       { title := "e6", link := "u6", published := some 0, updated := none, summary := none }]
    feedTitle := some "Feed" }

/-- Concrete paper `A` of the ranking-stability example. -/
def exPaperA : Paper :=
  { title := "A", authors := "a", abstract := some "x", journal := none,
    date := "2024-03-10", source := "PubMed", url := none }

/-- Concrete paper `B` of the ranking-stability example. -/
def exPaperB : Paper :=
  { title := "B", authors := "b", abstract := some "y", journal := none,
    date := "2024-03-10", source := "PubMed", url := none }

/-- Concrete paper `C` of the ranking-stability example. -/
def exPaperC : Paper :=
  { title := "C", authors := "c", abstract := some "z", journal := none,
    date := "2024-03-10", source := "bioRxiv", url := none }

/-- A concrete bioRxiv record that passes `biorxiv_keep`'s date and
keyword filters for the "Bacteriophage Research" keyword set. -/
def exBioRaw : BioRaw :=
  { title := "Phage therapy in murine models"
    authors := "Ada One, Bob Two, Cai Three, Dee Four, Eve Five"
    abstract := some "We evaluate phage cocktails."
    date := "2024-03-15"
    doi := "10.1101/2024.03.15.000001" }

/-- A concrete PubMed paper used by scorer witnesses. -/
def exPaperPub : Paper :=
  { title := "Phage therapy advances"
    authors := "Ada One, Bob Two"
    abstract := some "BACKGROUND: We study phage therapy in vivo."
    journal := some "Nature"
    date := "2024-03-15"
    source := "PubMed"
    url := some "https://doi.org/10.1000/x" }

/-! ### Helper lemmas -/

theorem foldl_eq_add_sum {β : Type} (f : Int → β → Int) (g : β → Int)
    (hf : ∀ s e, f s e = s + g e) :
    ∀ (l : List β) (init : Int), l.foldl f init = init + (l.map g).sum := by
  intro l
  induction l with
  | nil => intro init; simp
  | cons x xs ih =>
    intro init
    rw [List.foldl_cons, hf, List.map_cons, List.sum_cons, ← add_assoc]
    exact ih _

/-- The keyword loop is the sum of the per-keyword contributions. -/
theorem keywordScore_eq_sum (tbl : List (String × Int)) (title abstract : String) :
    keywordScore tbl title abstract = (tbl.map (kwContribution title abstract)).sum := by
  unfold keywordScore
  rw [foldl_eq_add_sum _ (kwContribution title abstract) ?_ tbl 0, zero_add]
  intro s e
  unfold kwContribution
  dsimp only
  split_ifs <;> ring

theorem foldl_accum_append {γ δ : Type} (f : List δ → γ → List δ) (g : γ → List δ)
    (hf : ∀ acc a, f acc a = acc ++ g a) (l : List γ) :
    ∀ acc, l.foldl f acc = acc ++ (l.map g).flatten := by
  induction l with
  | nil => intro acc; simp
  | cons x xs ih =>
    intro acc
    rw [List.foldl_cons, hf, ih]
    simp

theorem flatten_map_toList_eq_filterMap {γ δ : Type} (g : γ → Option δ) (l : List γ) :
    (l.map (fun a => (g a).toList)).flatten = l.filterMap g := by
  induction l with
  | nil => rfl
  | cons x xs ih => cases h : g x <;> simp [List.filterMap_cons, h, ih]

/-- The per-article loop of `search_pubmed` collects exactly the papers of
the successfully processed articles, in order: nothing is truncated and a
failing record removes only itself. -/
theorem processPubmedArticles_eq_filterMap (arts : List (Except Unit ArticleXml)) :
    processPubmedArticles arts = arts.filterMap pubmedExtract := by
  unfold processPubmedArticles
  rw [foldl_accum_append _ (fun a => (pubmedExtract a).toList) ?_ arts []]
  · rw [List.nil_append, flatten_map_toList_eq_filterMap]
  · intro acc a
    cases a with
    | error e => simp [pubmedExtract]
    | ok art => cases h : _parse_pubmed_article art <;> simp [pubmedExtract, h]

/-- `search_biorxiv` concatenates, in collection order, the qualifying
records of every successfully fetched collection. -/
theorem search_biorxiv_eq_flatten (todayDay days_back : Int) (kws : List String)
    (colls : List (Except Unit (List BioRaw))) :
    search_biorxiv todayDay days_back kws colls =
      (colls.map (biorxivCollExtract todayDay days_back kws)).flatten := by
  unfold search_biorxiv
  rw [foldl_accum_append _ (biorxivCollExtract todayDay days_back kws) ?_ colls []]
  · rw [List.nil_append]
  · intro acc c
    cases c with
    | error e => simp [biorxivCollExtract]
    | ok rs => simp [biorxivCollExtract]

theorem pySortDescInt_length {α : Type} (key : α → Int) (l : List α) :
    (pySortDescInt key l).length = l.length :=
  List.length_insertionSort _ l

theorem pySortDescInt_perm {α : Type} (key : α → Int) (l : List α) :
    List.Perm (pySortDescInt key l) l :=
  List.perm_insertionSort _ l

theorem pySortDescInt_sorted {α : Type} (key : α → Int) (l : List α) :
    List.Sorted (fun a b => key b ≤ key a) (pySortDescInt key l) := by
  haveI : IsTotal α (fun a b => key b ≤ key a) := ⟨fun a b => le_total (key b) (key a)⟩
  haveI : IsTrans α (fun a b => key b ≤ key a) := ⟨fun _ _ _ hab hbc => le_trans hbc hab⟩
  exact List.sorted_insertionSort _ l

theorem orderedInsert_filter_eq {α : Type} (key : α → Int) (v : Int) (x : α) (l : List α) :
    (List.orderedInsert (fun a b => key b ≤ key a) x l).filter (fun a => key a == v) =
      if key x = v then x :: l.filter (fun a => key a == v)
      else l.filter (fun a => key a == v) := by
  induction l with
  | nil =>
    by_cases h : key x = v
    · simp [List.orderedInsert, List.filter, h]
    · have hb : (key x == v) = false := by simp [beq_iff_eq, h]
      simp [List.orderedInsert, List.filter, hb, h]
  | cons y ys ih =>
    simp only [List.orderedInsert]
    by_cases hr : key y ≤ key x
    · rw [if_pos hr]
      by_cases hx : key x = v
      · simp [List.filter_cons, beq_iff_eq, hx]
      · simp [List.filter_cons, beq_iff_eq, hx]
    · rw [if_neg hr]
      have hlt : key x < key y := lt_of_not_le hr
      by_cases hx : key x = v
      · have hy : ¬ key y = v := by omega
        have hyb : (key y == v) = false := by simp [beq_iff_eq, hy]
        simp [List.filter_cons, hyb, hx, ih]
      · simp [List.filter_cons, ih, hx]

/-- Stability of the descending sort: for every key value, the sorted
list's elements with that key are exactly the input's elements with that
key, in input order. -/
theorem pySortDescInt_stable_filter {α : Type} (key : α → Int) (v : Int) (l : List α) :
    (pySortDescInt key l).filter (fun a => key a == v) = l.filter (fun a => key a == v) := by
  unfold pySortDescInt
  induction l with
  | nil => rfl
  | cons x xs ih =>
    rw [List.insertionSort, orderedInsert_filter_eq]
    split_ifs with h
    · rw [List.filter_cons, if_pos (by simp [h]), ih]
    · rw [List.filter_cons, if_neg (by simp [h]), ih]

theorem mem_stripTagsAux {c : Char} :
    ∀ (l : List Char) (b : Bool), c ∈ stripTagsAux b l → c ∈ l ∧ c ≠ '<' := by
  intro l
  induction l with
  | nil => intro b h; simp [stripTagsAux] at h
  | cons a rest ih =>
    intro b h
    cases b with
    | true =>
      rw [stripTagsAux] at h
      split at h
      · exact ⟨List.mem_cons_of_mem _ (ih false h).1, (ih false h).2⟩
      · exact ⟨List.mem_cons_of_mem _ (ih true h).1, (ih true h).2⟩
    | false =>
      rw [stripTagsAux] at h
      split at h
      · exact ⟨List.mem_cons_of_mem _ (ih true h).1, (ih true h).2⟩
      · rcases List.mem_cons.mp h with rfl | h'
        · rename_i ha
          exact ⟨List.mem_cons_self _ _, ha⟩
        · exact ⟨List.mem_cons_of_mem _ (ih false h').1, (ih false h').2⟩

theorem mem_collapseWsAux {c : Char} :
    ∀ (l : List Char) (b : Bool), c ∈ collapseWsAux b l →
      c = ' ' ∨ (c ∈ l ∧ isPySpace c = false) := by
  intro l
  induction l with
  | nil => intro b h; simp [collapseWsAux] at h
  | cons a rest ih =>
    intro b h
    rw [collapseWsAux] at h
    split at h
    · split at h
      · rcases ih true h with h' | h'
        · exact Or.inl h'
        · exact Or.inr ⟨List.mem_cons_of_mem _ h'.1, h'.2⟩
      · rcases List.mem_cons.mp h with rfl | h'
        · exact Or.inl rfl
        · rcases ih true h' with h'' | h''
          · exact Or.inl h''
          · exact Or.inr ⟨List.mem_cons_of_mem _ h''.1, h''.2⟩
    · rcases List.mem_cons.mp h with rfl | h'
      · rename_i ha
        exact Or.inr ⟨List.mem_cons_self _ _, by simpa using ha⟩
      · rcases ih false h' with h'' | h''
        · exact Or.inl h''
        · exact Or.inr ⟨List.mem_cons_of_mem _ h''.1, h''.2⟩

theorem head_collapseWsAux_true {c : Char} :
    ∀ l : List Char, (collapseWsAux true l).head? = some c → isPySpace c = false := by
  intro l
  induction l with
  | nil => intro h; simp [collapseWsAux] at h
  | cons a rest ih =>
    intro h
    rw [collapseWsAux] at h
    split at h
    · rw [if_pos rfl] at h
      exact ih h
    · rename_i ha
      simp only [List.head?_cons, Option.some.injEq] at h
      subst h
      simpa using ha

theorem chain'_collapseWsAux :
    ∀ (l : List Char) (b : Bool),
      List.Chain' (fun a b => ¬(isPySpace a = true ∧ isPySpace b = true)) (collapseWsAux b l) := by
  intro l
  induction l with
  | nil => intro b; simp [collapseWsAux]
  | cons a rest ih =>
    intro b
    rw [collapseWsAux]
    split
    · split
      · exact ih true
      · refine List.chain'_cons'.mpr ⟨?_, ih true⟩
        intro y hy
        intro hcon
        have := head_collapseWsAux_true rest hy
        rw [this] at hcon
        exact Bool.false_ne_true hcon.2
    · rename_i ha
      refine List.chain'_cons'.mpr ⟨?_, ih false⟩
      intro y hy
      intro hcon
      rw [hcon.1] at ha
      exact ha rfl

theorem chain'_pyStripL {R : Char → Char → Prop} (hsymm : ∀ a b, R a b → R b a)
    {l : List Char} (h : List.Chain' R l) : List.Chain' R (pyStripL l) := by
  unfold pyStripL
  have h1 : List.Chain' R (l.dropWhile isPySpace) := h.suffix (List.dropWhile_suffix _)
  have h2 : List.Chain' R (l.dropWhile isPySpace).reverse :=
    List.chain'_reverse.mpr (h1.imp hsymm)
  have h3 : List.Chain' R ((l.dropWhile isPySpace).reverse.dropWhile isPySpace) :=
    h2.suffix (List.dropWhile_suffix _)
  exact List.chain'_reverse.mpr (h3.imp hsymm)

theorem mem_pyStripL {c : Char} {l : List Char} (h : c ∈ pyStripL l) : c ∈ l := by
  unfold pyStripL at h
  rw [List.mem_reverse] at h
  have h1 := (List.dropWhile_suffix isPySpace).sublist.subset h
  rw [List.mem_reverse] at h1
  exact (List.dropWhile_suffix isPySpace).sublist.subset h1

theorem containsHtmlTag_eq_false {l : List Char} (h : ∀ c ∈ l, c ≠ '<') :
    containsHtmlTag l = false := by
  induction l with
  | nil => rfl
  | cons a rest ih =>
    rw [containsHtmlTag]
    rw [if_neg (h a (List.mem_cons_self _ _))]
    exact ih (fun c hc => h c (List.mem_cons_of_mem _ hc))

theorem clean_html_core (s : String) :
    (clean_html s).toList.length ≤ 303 ∧
    (∀ c ∈ (clean_html s).toList, c ≠ '<') ∧
    List.Chain' (fun a b => ¬(isPySpace a = true ∧ isPySpace b = true))
      (clean_html s).toList ∧
    (∀ c ∈ (clean_html s).toList, isPySpace c = true → c = ' ') := by
  unfold clean_html
  by_cases hs : s = ""
  · rw [if_pos hs]
    refine ⟨by simp, by simp, by simp, by simp⟩
  · rw [if_neg hs]
    have hmem : ∀ c ∈ pyStripL (collapseWs (stripTags s.toList)),
        c = ' ' ∨ (c ∈ stripTags s.toList ∧ isPySpace c = false) := by
      intro c hc
      exact mem_collapseWsAux (stripTags s.toList) false
        (show c ∈ collapseWsAux false (stripTags s.toList) from mem_pyStripL hc)
    have hnlt : ∀ c ∈ pyStripL (collapseWs (stripTags s.toList)), c ≠ '<' := by
      intro c hc
      rcases hmem c hc with rfl | ⟨hc', _⟩
      · decide
      · exact (mem_stripTagsAux _ false hc').2
    have hws : ∀ c ∈ pyStripL (collapseWs (stripTags s.toList)),
        isPySpace c = true → c = ' ' := by
      intro c hc hsp
      rcases hmem c hc with rfl | ⟨_, hfalse⟩
      · rfl
      · rw [hfalse] at hsp; exact absurd hsp (by simp)
    have hchain : List.Chain' (fun a b => ¬(isPySpace a = true ∧ isPySpace b = true))
        (pyStripL (collapseWs (stripTags s.toList))) := by
      refine chain'_pyStripL ?_ ?_
      · intro a b hab hcon
        exact hab ⟨hcon.2, hcon.1⟩
      · exact chain'_collapseWsAux _ false
    unfold cleanTruncate
    split
    · rename_i hlong
      constructor
      · show ((pyStripL (collapseWs (stripTags s.toList))).take 297
            ++ ['.', '.', '.']).length ≤ 303
        rw [List.length_append]
        have := List.length_take_le 297 (pyStripL (collapseWs (stripTags s.toList)))
        simp only [List.length_cons, List.length_nil]
        omega
      refine ⟨?_, ?_, ?_⟩
      · intro c hc
        rcases List.mem_append.mp hc with hc' | hc'
        · exact hnlt c (List.take_subset _ _ hc')
        · have hc'' : c = '.' := by simpa using hc'
          rw [hc'']
          decide
      · refine List.chain'_append.mpr ⟨hchain.take 297, ?_, ?_⟩
        · exact List.chain'_cons.mpr ⟨by decide, List.chain'_cons.mpr
            ⟨by decide, List.chain'_singleton _⟩⟩
        · intro x hx y hy hcon
          simp only [List.head?_cons, Option.mem_def, Option.some.injEq] at hy
          subst hy
          have : isPySpace '.' = false := by decide
          rw [this] at hcon
          exact Bool.false_ne_true hcon.2
      · intro c hc hsp
        rcases List.mem_append.mp hc with hc' | hc'
        · exact hws c (List.take_subset _ _ hc') hsp
        · exfalso
          have hdot : c = '.' := by simpa using hc'
          rw [hdot] at hsp
          exact absurd hsp (by decide)
    · rename_i hshort
      refine ⟨?_, hnlt, hchain, hws⟩
      show (pyStripL (collapseWs (stripTags s.toList))).length ≤ 303
      omega

theorem kwContribution_nonneg (title abstract : String) (kw : String × Int)
    (hw : 0 ≤ kw.2) : 0 ≤ kwContribution title abstract kw := by
  unfold kwContribution
  split_ifs <;> omega

theorem keywordScore_nonneg (tbl : List (String × Int)) (title abstract : String)
    (h : ∀ kw ∈ tbl, 0 ≤ kw.2) : 0 ≤ keywordScore tbl title abstract := by
  rw [keywordScore_eq_sum]
  apply List.sum_nonneg
  intro x hx
  rcases List.mem_map.mp hx with ⟨kw, hkw, rfl⟩
  exact kwContribution_nonneg _ _ _ (h kw hkw)

theorem pyDictGet_nonneg (tbl : List (String × Int)) (k : String) (d : Int)
    (h : ∀ e ∈ tbl, 0 ≤ e.2) (hd : 0 ≤ d) : 0 ≤ pyDictGet tbl k d := by
  unfold pyDictGet
  cases hf : tbl.find? (fun e => e.1 == k) with
  | none => exact hd
  | some e => exact h e (List.mem_of_find?_eq_some hf)

theorem recencyBonus_nonneg (todayDay : Int) (s : String) :
    0 ≤ recencyBonus todayDay s := by
  unfold recencyBonus
  cases parseYMD s with
  | none => exact le_refl 0
  | some d =>
    dsimp only
    split_ifs <;> omega

theorem venueBonus_nonneg (js : List (String × Int)) (j : Option String)
    (h : ∀ e ∈ js, 0 ≤ e.2) : 0 ≤ venueBonus js j :=
  pyDictGet_nonneg _ _ _ h le_rfl

theorem journal_scores_nonneg : ∀ e ∈ journal_scores, 0 ≤ e.2 := by decide

theorem keywords_weights_nonneg : ∀ p ∈ keywords, ∀ kw ∈ p.2, 0 ≤ kw.2 := by decide

theorem keywordsFor_nonneg (cat : String) : ∀ kw ∈ keywordsFor cat, 0 ≤ kw.2 := by
  intro kw hkw
  unfold keywordsFor at hkw
  cases hf : keywords.find? (fun e => e.1 == cat) with
  | none => rw [hf] at hkw; cases hkw
  | some e =>
    rw [hf] at hkw
    exact keywords_weights_nonneg e (List.mem_of_find?_eq_some hf) kw hkw

/-! ### Claim theorems -/

/-- Claim C1, counterexample: the claim "no adapter truncates to
`max_items`" is false for the feed adapter.  A fetched feed with six
entries, all of which pass the recency test, yields only five items from
`get_news_from_rss` (the source returns `recent_entries[:max_items]`
inside the adapter, line 156). -/
theorem C1_counterexample :
    exFeed6.entries.length = 6 ∧
    exFeed6.entries.all (entryRecent 0 2) = true ∧
    (get_news_from_rss 0 (Except.ok exFeed6) 2 5).length = 5 := by decide

/-- Claim C1 (amended): the literature adapter's record loop and the
preprint adapter keep every qualifying item (their outputs are exactly the
per-record / per-collection extractions, with no count limit), and the
paper ranker preserves length; but the feed adapter itself truncates its
output to `max_items`. -/
theorem C1_truncation_only_in_feed_adapter :
    (∀ arts : List (Except Unit ArticleXml),
        processPubmedArticles arts = arts.filterMap pubmedExtract) ∧
    (∀ (todayDay days_back : Int) (kws : List String)
        (colls : List (Except Unit (List BioRaw))),
        search_biorxiv todayDay days_back kws colls =
          (colls.map (biorxivCollExtract todayDay days_back kws)).flatten) ∧
    (∀ l : List (Paper × Int),
        (pySortDescInt (fun x : Paper × Int => x.2) l).length = l.length) ∧
    (∀ (now days_back : Int) (feed : RawFeed) (max_items : Nat),
        (get_news_from_rss now (Except.ok feed) days_back max_items).length ≤ max_items) := by
  refine ⟨processPubmedArticles_eq_filterMap, search_biorxiv_eq_flatten,
    fun l => pySortDescInt_length _ l, ?_⟩
  intro now days_back feed max_items
  exact List.length_take_le _ _

/-- Claim C2: the score's keyword component is the sum of per-keyword
contributions, and a keyword `K` of weight `W` contributes exactly `W + 3`
when it occurs (case-insensitively) in `title + " " + abstract` and in the
title, exactly `W` when it occurs in the combined text but not in the
title, and `0` when it does not occur — never `2W`. -/
theorem C2_keyword_contribution :
    (∀ (kwTbl js : List (String × Int)) (todayDay : Int) (p : Paper),
        calculate_relevance_score kwTbl js todayDay p =
          (kwTbl.map (kwContribution p.title (p.abstract.getD ""))).sum
            + venueBonus js p.journal + recencyBonus todayDay p.date) ∧
    (∀ (k : String) (w : Int) (title abstract : String),
        (containsSub (pyLower k) (pyLower (title ++ " " ++ abstract)) = true →
          containsSub (pyLower k) (pyLower title) = true →
          kwContribution title abstract (k, w) = w + 3) ∧
        (containsSub (pyLower k) (pyLower (title ++ " " ++ abstract)) = true →
          containsSub (pyLower k) (pyLower title) = false →
          kwContribution title abstract (k, w) = w) ∧
        (containsSub (pyLower k) (pyLower (title ++ " " ++ abstract)) = false →
          kwContribution title abstract (k, w) = 0)) := by
  constructor
  · intro kwTbl js todayDay p
    unfold calculate_relevance_score
    rw [keywordScore_eq_sum]
  · intro k w title abstract
    refine ⟨?_, ?_, ?_⟩
    · intro h1 h2
      unfold kwContribution
      rw [if_pos h1, if_pos h2]
    · intro h1 h2
      unfold kwContribution
      rw [if_pos h1, if_neg (by simp [h2]), add_zero]
    · intro h1
      unfold kwContribution
      rw [if_neg (by simp [h1])]

/-- Witness for C2 at concrete inputs: "phage therapy" (weight 10)
contributes 13 when in title and text, 10 when only in the abstract, and 0
when absent. -/
theorem C2_keyword_contribution_witness :
    kwContribution "Phage therapy advances" "x" ("phage therapy", 10) = 10 + 3 ∧
    kwContribution "Other title" "about phage therapy" ("phage therapy", 10) = 10 ∧
    kwContribution "Other title" "nothing here" ("phage therapy", 10) = 0 :=
  ⟨(C2_keyword_contribution.2 "phage therapy" 10 "Phage therapy advances" "x").1
      (by decide) (by decide),
   (C2_keyword_contribution.2 "phage therapy" 10 "Other title" "about phage therapy").2.1
      (by decide) (by decide),
   (C2_keyword_contribution.2 "phage therapy" 10 "Other title" "nothing here").2.2
      (by decide)⟩

/-- Claim C3: for a date that parses as `YYYY-MM-DD`, the recency
component is exactly 5 at age at most 1 day, exactly 3 at age 2 or 3 days,
and 0 at age 4 days or more; an unparseable date contributes exactly 0
(and the scorer, being total, cannot fail on it). -/
theorem C3_recency_bonus :
    (∀ (s : String) (todayDay d : Int), parseYMD s = some d →
        (todayDay - d ≤ 1 → recencyBonus todayDay s = 5) ∧
        ((todayDay - d = 2 ∨ todayDay - d = 3) → recencyBonus todayDay s = 3) ∧
        (4 ≤ todayDay - d → recencyBonus todayDay s = 0)) ∧
    (∀ (s : String) (todayDay : Int), parseYMD s = none →
        recencyBonus todayDay s = 0) := by
  constructor
  · intro s todayDay d h
    unfold recencyBonus
    rw [h]
    refine ⟨?_, ?_, ?_⟩ <;> intro hage <;> dsimp only <;> split_ifs <;> omega
  · intro s todayDay h
    unfold recencyBonus
    rw [h]

/-- Witness for C3 at "2024-03-15" (day number 19797) against reference
days 1, 3 and 4 days later, and at the unparseable "Date not available". -/
theorem C3_recency_bonus_witness :
    recencyBonus 19798 "2024-03-15" = 5 ∧
    recencyBonus 19800 "2024-03-15" = 3 ∧
    recencyBonus 19801 "2024-03-15" = 0 ∧
    recencyBonus 19798 "Date not available" = 0 :=
  ⟨(C3_recency_bonus.1 "2024-03-15" 19798 19797 (by decide)).1 (by decide),
   (C3_recency_bonus.1 "2024-03-15" 19800 19797 (by decide)).2.1 (Or.inr (by decide)),
   (C3_recency_bonus.1 "2024-03-15" 19801 19797 (by decide)).2.2 (by decide),
   C3_recency_bonus.2 "Date not available" 19798 (by decide)⟩

/-- Claim C4: the per-category ranking is a stable descending sort by
relevance score — the output is sorted descending, elements of any fixed
score appear exactly as in the input (ties keep arrival order), the whole
input is preserved (same length, no truncation), and on the example
`[A(5), B(5), C(9)]` the ranked output is `[C, A, B]`. -/
theorem C4_ranking_stability :
    (∀ l : List (Paper × Int),
        List.Sorted (fun x y : Paper × Int => y.2 ≤ x.2)
          (pySortDescInt (fun x : Paper × Int => x.2) l)) ∧
    (∀ (l : List (Paper × Int)) (v : Int),
        (pySortDescInt (fun x : Paper × Int => x.2) l).filter (fun x => x.2 == v) =
          l.filter (fun x => x.2 == v)) ∧
    (∀ l : List (Paper × Int),
        (pySortDescInt (fun x : Paper × Int => x.2) l).length = l.length) ∧
    pySortDescInt (fun x : Paper × Int => x.2)
        [(exPaperA, 5), (exPaperB, 5), (exPaperC, 9)] =
      [(exPaperC, 9), (exPaperA, 5), (exPaperB, 5)] := by
  refine ⟨?_, ?_, ?_, by decide⟩
  · intro l
    exact pySortDescInt_sorted (fun x : Paper × Int => x.2) l
  · intro l v
    exact pySortDescInt_stable_filter (fun x : Paper × Int => x.2) v l
  · intro l
    exact pySortDescInt_length _ l

/-- Claim C5: PubMed publication-date parsing maps the claimed examples to
`"2024-03-01"` and `"2024-03-15"`; a numeric month is zero-padded, an
abbreviated month is converted to its number, an unparseable or missing
month behaves like `"01"`, a missing day behaves like `"01"`, and a
missing year behaves like `"2023"`. -/
theorem C5_pubmed_date_parsing :
    _parse_pub_date (some ⟨some "2024", some "Mar", none⟩) = "2024-03-01" ∧
    _parse_pub_date (some ⟨some "2024", some "03", some "15"⟩) = "2024-03-15" ∧
    _parse_pub_date (some ⟨some "2024", some "3", some "5"⟩) = "2024-03-05" ∧
    _parse_pub_date (some ⟨some "2024", some "???", some "15"⟩) = "2024-01-15" ∧
    (∀ y m, _parse_pub_date (some ⟨y, m, none⟩) = _parse_pub_date (some ⟨y, m, some "01"⟩)) ∧
    (∀ y d, _parse_pub_date (some ⟨y, none, d⟩) = _parse_pub_date (some ⟨y, some "01", d⟩)) ∧
    (∀ m d, _parse_pub_date (some ⟨none, m, d⟩) = _parse_pub_date (some ⟨some "2023", m, d⟩)) := by
  refine ⟨by decide, by decide, by decide, by decide, ?_, ?_, ?_⟩
  · intro y m
    rfl
  · intro y d
    rfl
  · intro m d
    rfl

/-- Claim C6: for every input, `clean_html` produces a string of length at
most 303 characters, containing no HTML-tag-shaped region, in which every
whitespace character is a single `' '` with no two adjacent (whitespace
runs collapsed); the empty input yields the empty string. -/
theorem C6_clean_html_output :
    (∀ s : String,
        (clean_html s).toList.length ≤ 303 ∧
        containsHtmlTag (clean_html s).toList = false ∧
        List.Chain' (fun a b => ¬(isPySpace a = true ∧ isPySpace b = true))
          (clean_html s).toList ∧
        (∀ c ∈ (clean_html s).toList, isPySpace c = true → c = ' ')) ∧
    clean_html "" = "" := by
  refine ⟨?_, rfl⟩
  intro s
  obtain ⟨h1, h2, h3, h4⟩ := clean_html_core s
  exact ⟨h1, containsHtmlTag_eq_false h2, h3, h4⟩

/-- Witness for C6 at a concrete HTML fragment, applying the theorem's
whitespace clause at the space of `"hello world"`. -/
theorem C6_clean_html_output_witness :
    clean_html "<p>hello   world</p>" = "hello world" ∧
    (clean_html "<p>hello   world</p>").toList.length ≤ 303 ∧
    containsHtmlTag (clean_html "<p>hello   world</p>").toList = false ∧
    (' ' : Char) = ' ' :=
  ⟨by decide,
   (C6_clean_html_output.1 "<p>hello   world</p>").1,
   (C6_clean_html_output.1 "<p>hello   world</p>").2.1,
   (C6_clean_html_output.1 "<p>hello   world</p>").2.2.2 ' ' (by decide) (by decide)⟩

/-- Claim C7: failures never propagate.  A raising feed fetch yields `[]`;
a raising feed in a topic bucket leaves the sibling feeds' merged result
unchanged; a raising PubMed record is skipped without affecting the rest
of the batch; a raising bioRxiv collection is skipped without affecting
the other collections; and the aggregator always yields exactly one
(possibly empty) result list per category. -/
theorem C7_failure_isolation :
    (∀ (now days_back : Int) (max_items : Nat),
        get_news_from_rss now (Except.error ()) days_back max_items = []) ∧
    (∀ (now days_back : Int) (as bs : List (Except Unit RawFeed)),
        get_all_news now days_back (as ++ Except.error () :: bs) =
          get_all_news now days_back (as ++ bs)) ∧
    (∀ (as bs : List (Except Unit ArticleXml)),
        processPubmedArticles (as ++ Except.error () :: bs) =
          processPubmedArticles (as ++ bs)) ∧
    (∀ (todayDay days_back : Int) (kws : List String)
        (as bs : List (Except Unit (List BioRaw))),
        search_biorxiv todayDay days_back kws (as ++ Except.error () :: bs) =
          search_biorxiv todayDay days_back kws (as ++ bs)) ∧
    (∀ (todayDay days_back : Int)
        (pubmedResp : String → Except Unit (List (Except Unit ArticleXml)))
        (bioResp : String → List (Except Unit (List BioRaw))),
        (search_all_pubmed_categories todayDay days_back pubmedResp bioResp).map Prod.fst =
          keywords.map Prod.fst) := by
  refine ⟨fun _ _ _ => rfl, ?_, ?_, ?_, ?_⟩
  · intro now days_back as bs
    unfold get_all_news
    congr 1
    simp [get_news_from_rss]
  · intro as bs
    rw [processPubmedArticles_eq_filterMap, processPubmedArticles_eq_filterMap]
    simp [List.filterMap_append, List.filterMap_cons, pubmedExtract]
  · intro todayDay days_back kws as bs
    rw [search_biorxiv_eq_flatten, search_biorxiv_eq_flatten]
    simp [biorxivCollExtract]
  · intro todayDay days_back pubmedResp bioResp
    unfold search_all_pubmed_categories
    rw [List.map_map]
    rfl

/-- Claim C8: against the program's keyword tables (any category name,
via `keywords.get`) and journal table, every score is a non-negative
integer; and scoring is deterministic — identical item, tables and
reference day give identical scores. -/
theorem C8_score_nonneg_deterministic :
    (∀ (cat : String) (todayDay : Int) (p : Paper),
        0 ≤ calculate_relevance_score (keywordsFor cat) journal_scores todayDay p) ∧
    (∀ (kwTbl js : List (String × Int)) (todayDay : Int) (p q : Paper),
        p = q →
          calculate_relevance_score kwTbl js todayDay p =
            calculate_relevance_score kwTbl js todayDay q) := by
  constructor
  · intro cat todayDay p
    unfold calculate_relevance_score
    have h1 := keywordScore_nonneg (keywordsFor cat) p.title (p.abstract.getD "")
      (keywordsFor_nonneg cat)
    have h2 := venueBonus_nonneg journal_scores p.journal journal_scores_nonneg
    have h3 := recencyBonus_nonneg todayDay p.date
    omega
  · intro kwTbl js todayDay p q h
    rw [h]

/-- Witness for C8 at a concrete paper and category. -/
theorem C8_score_nonneg_deterministic_witness :
    0 ≤ calculate_relevance_score (keywordsFor "Bacteriophage Research")
        journal_scores 19798 exPaperPub ∧
    calculate_relevance_score (keywordsFor "Bacteriophage Research")
        journal_scores 19798 exPaperPub =
      calculate_relevance_score (keywordsFor "Bacteriophage Research")
        journal_scores 19798 exPaperPub :=
  ⟨C8_score_nonneg_deterministic.1 "Bacteriophage Research" 19798 exPaperPub,
   C8_score_nonneg_deterministic.2 (keywordsFor "Bacteriophage Research")
     journal_scores 19798 exPaperPub exPaperPub rfl⟩

/-- Claim C9: a PubMed record with no `<PubDate>` element gets the literal
date `"Date not available"` (not the `"2023-01-01"` sentinel); that string
does not parse as `YYYY-MM-DD`, and any item whose date does not parse
gets recency bonus exactly 0, the rest of its score being unaffected (the
scorer is total, so it cannot fail). -/
theorem C9_missing_pubdate :
    _parse_pub_date none = "Date not available" ∧
    parseYMD "Date not available" = none ∧
    (∀ todayDay : Int, recencyBonus todayDay "Date not available" = 0) ∧
    (∀ (s : String) (todayDay : Int), parseYMD s = none →
        recencyBonus todayDay s = 0) ∧
    (∀ (kwTbl js : List (String × Int)) (todayDay : Int) (p : Paper),
        parseYMD p.date = none →
          calculate_relevance_score kwTbl js todayDay p =
            keywordScore kwTbl p.title (p.abstract.getD "") + venueBonus js p.journal) := by
  have hnone : ∀ (s : String) (todayDay : Int), parseYMD s = none →
      recencyBonus todayDay s = 0 := by
    intro s todayDay h
    unfold recencyBonus
    rw [h]
  refine ⟨rfl, by decide, ?_, hnone, ?_⟩
  · intro todayDay
    exact hnone _ _ (by decide)
  · intro kwTbl js todayDay p h
    unfold calculate_relevance_score
    rw [hnone p.date todayDay h, add_zero]

/-- Witness for C9 at a paper dated "Date not available". -/
theorem C9_missing_pubdate_witness :
    recencyBonus 19798 "not a date" = 0 ∧
    calculate_relevance_score (keywordsFor "Bacteriophage Research") journal_scores 19798
        { exPaperPub with date := "Date not available" } =
      keywordScore (keywordsFor "Bacteriophage Research")
          ({ exPaperPub with date := "Date not available" } : Paper).title
          (({ exPaperPub with date := "Date not available" } : Paper).abstract.getD "")
        + venueBonus journal_scores
          ({ exPaperPub with date := "Date not available" } : Paper).journal :=
  ⟨C9_missing_pubdate.2.2.2.1 "not a date" 19798 (by decide),
   C9_missing_pubdate.2.2.2.2 (keywordsFor "Bacteriophage Research") journal_scores 19798
     { exPaperPub with date := "Date not available" } (by decide)⟩

/-- Claim C10: every paper the bioRxiv adapter produces has no journal
field and carries the source's raw author string verbatim; a paper with no
journal field gets venue bonus 0 from the program's journal table (and
from any table that has no entry for the empty string); the PubMed author
formatting, by contrast, truncates to three names plus " et al.". -/
theorem C10_biorxiv_journal_authors :
    (∀ (todayDay days_back : Int) (kws : List String) (r : BioRaw) (p : Paper),
        biorxiv_keep todayDay days_back kws r = some p →
          p.journal = none ∧ p.authors = r.authors ∧ p.source = "bioRxiv") ∧
    (∀ p : Paper, p.journal = none → venueBonus journal_scores p.journal = 0) ∧
    (∀ js : List (String × Int), js.find? (fun e => e.1 == "") = none →
        ∀ p : Paper, p.journal = none → venueBonus js p.journal = 0) ∧
    formatAuthors ["Ada One", "Bob Two", "Cai Three", "Dee Four"] =
      "Ada One, Bob Two, Cai Three et al." := by
  refine ⟨?_, ?_, ?_, by decide⟩
  · intro todayDay days_back kws r p h
    unfold biorxiv_keep at h
    split at h
    · cases h
    · rename_i d hparse
      split_ifs at h with hwin
      · dsimp only at h
        split_ifs at h with hkw
        injection h with h'
        subst h'
        exact ⟨rfl, rfl, rfl⟩
  · intro p hp
    rw [hp]
    decide
  · intro js hfind p hp
    rw [hp]
    show pyDictGet js (pyStrip "") 0 = 0
    have hempty : pyStrip "" = "" := rfl
    rw [hempty]
    unfold pyDictGet
    rw [hfind]

/-- Witness for C10 at a concrete qualifying bioRxiv record. -/
theorem C10_biorxiv_journal_authors_witness :
    Paper.journal
        { title := "Phage therapy in murine models"
          authors := "Ada One, Bob Two, Cai Three, Dee Four, Eve Five"
          abstract := some "We evaluate phage cocktails."
          journal := none
          date := "2024-03-15"
          source := "bioRxiv"
          url := some "https://doi.org/10.1101/2024.03.15.000001" } = none ∧
    Paper.authors
        { title := "Phage therapy in murine models"
          authors := "Ada One, Bob Two, Cai Three, Dee Four, Eve Five"
          abstract := some "We evaluate phage cocktails."
          journal := none
          date := "2024-03-15"
          source := "bioRxiv"
          url := some "https://doi.org/10.1101/2024.03.15.000001" } = exBioRaw.authors ∧
    venueBonus journal_scores none = 0 := by
  have h := C10_biorxiv_journal_authors.1 19797 7 ["phage therapy"] exBioRaw
    { title := "Phage therapy in murine models"
      authors := "Ada One, Bob Two, Cai Three, Dee Four, Eve Five"
      abstract := some "We evaluate phage cocktails."
      journal := none
      date := "2024-03-15"
      source := "bioRxiv"
      url := some "https://doi.org/10.1101/2024.03.15.000001" } (by decide)
  have h2 := C10_biorxiv_journal_authors.2.1
    { title := "Phage therapy in murine models"
      authors := "Ada One, Bob Two, Cai Three, Dee Four, Eve Five"
      abstract := some "We evaluate phage cocktails."
      journal := none
      date := "2024-03-15"
      source := "bioRxiv"
      url := some "https://doi.org/10.1101/2024.03.15.000001" } rfl
  exact ⟨h.1, h.2.1, h2⟩
